import Mathlib

/-!
Verification development for `activate-stylus-program` (src/src/main.rs).

The program estimates the activation data fee for a Stylus program via a
state-overridden `eth_call` against the ArbWasm precompile, optionally bumps
the fee by a percentage, and submits an activation transaction.

Shallow embedding conventions:
* 256-bit unsigned integers (ethers `U256`, alloy `U256`) are `Nat`, with
  range side conditions `< 2 ^ 256` stated where relevant;
* `u64` values are `Nat` with range side conditions `< 2 ^ 64`;
* bytes are `Fin 256`, byte strings are `List (Fin 256)`;
* addresses (`H160` / alloy `Address`) are `Nat` (their 20-byte value read
  big-endian); the two library representations interconvert byte-for-byte,
  so a single type models both;
* fallible code returns `Option` / `Except`; a Rust panic is modelled as
  `none` (ethers/primitive-types `U256` multiplication panics on overflow
  unconditionally via the `uint` crate's `panic_on_overflow!`);
* the `u64` addition `100 + pct` in `bump_data_fee` is modelled with
  release-profile semantics (wrapping, i.e. `% 2 ^ 64`).
-/

/-- A byte, as produced by `Vec<u8>` / `Bytes` in the source. -/
abbrev Byte := Fin 256

/-- Big-endian interpretation of a byte string as a natural number
(how ABI words encode `uintN`). -/
def fromBE : List Byte → Nat
  | [] => 0
  | b :: bs => b.val * 256 ^ bs.length + fromBE bs

/-- Big-endian byte string of fixed width `n` for a value `v`
(the ABI word encoding of `uintN`, most significant byte first). -/
def beBytes : Nat → Nat → List Byte
  | 0, _ => []
  | n + 1, v => beBytes n (v / 256) ++ [⟨v % 256, Nat.mod_lt _ (by norm_num)⟩]

/-- Little-endian interpretation of a byte string (ethers
`U256::from_little_endian`). -/
def fromLE : List Byte → Nat
  | [] => 0
  | b :: bs => b.val + 256 * fromLE bs

/-- Little-endian byte string of fixed width `n` for a value `v`
(alloy `U256::as_le_slice` is `leBytes 32`). -/
def leBytes : Nat → Nat → List Byte
  | 0, _ => []
  | n + 1, v => ⟨v % 256, Nat.mod_lt _ (by norm_num)⟩ :: leBytes n (v / 256)

/-!
## Fee policy (`bump_data_fee`, src/src/main.rs:161-164)

```rust
fn bump_data_fee(fee: U256, pct: u64) -> U256 {
    let num = 100 + pct;
    fee * U256::from(num) / U256::from(100)
}
```

`100 + pct` is a `u64` addition: it wraps modulo `2 ^ 64` in release builds
(and would panic in debug builds; the wrap region is avoided by every theorem
below except where it is the point).  `fee * U256::from(num)` is an ethers
(`primitive-types`/`uint`) `U256` multiplication, which panics whenever the
mathematical product is `≥ 2 ^ 256`; the panic is modelled as `none`.
Division by the constant 100 cannot fail.
-/

def bump_data_fee (fee : Nat) (pct : Nat) : Option Nat :=
  let num := (100 + pct) % 2 ^ 64
  if fee * num < 2 ^ 256 then some (fee * num / 100) else none

/-!
## ABI codec (`sol!` interface `ArbWasm`, src/src/main.rs:22-29)

`activateProgram(address program) returns (uint16 version, uint256 dataFee)`.

Encoding: the 4-byte selector followed by the address left-padded to a
32-byte word.  The selector is the first four bytes of
`keccak256` of the signature, computed by the `sol!` macro; keccak itself is
not part of this repository, so the selector is a fixed byte constant here.
No theorem depends on its numeric value.
-/

def activateProgram_selector : List Byte := [88, 199, 128, 194]

/-- `ArbWasm::activateProgramCall { program }.abi_encode()`: selector then the
20-byte address as a left-zero-padded 32-byte word (`beBytes 32` of a value
below `2 ^ 160` starts with 12 zero bytes). -/
def encodeActivateCall (program : Nat) : List Byte :=
  activateProgram_selector ++ beBytes 32 program

/-- Canonical ABI encoding of the return tuple `(uint16 version, uint256
dataFee)`: two 32-byte big-endian words.  This is the test-only encoder of
spec section 8 and also the reference encoding used by alloy's
`validate = true` re-serialization check. -/
def encode_activate_return (version dataFee : Nat) : List Byte :=
  beBytes 32 version ++ beBytes 32 dataFee

/-- `ArbWasm::activateProgramCall::abi_decode_returns(&outs, true)`
(src/src/main.rs:107).  The return tuple `(uint16, uint256)` is static, so
decoding reads two head words: word 0 must be a canonically padded `uint16`
(30 leading zero bytes), word 1 is any 32-byte `uint256`.  Because the call
passes `validate = true`, alloy re-encodes the decoded tuple and compares it
with the whole input (`Error::ReserMismatch` on mismatch), so the input must
be exactly 64 bytes: shorter input fails during decoding (overrun), longer
input — including trailing padding — fails the re-serialization check, and
non-zero bytes in the `uint16` padding fail the type check.  Failure is
`none`. -/
def abi_decode_returns (data : List Byte) : Option (Nat × Nat) :=
  if data.length = 64 ∧ data.take 30 = List.replicate 30 (0 : Byte) then
    some (fromBE ((data.drop 30).take 2), fromBE (data.drop 32))
  else none

/-!
## JSON-RPC error classification (`funded_eth_call`, src/src/main.rs:126-153)

The network round trip is the external boundary: the provider's response to
`call_raw(&tx).state(&state)` is the input of the embedded function.  The
response is either raw return bytes, a JSON-RPC client error (which may or
may not carry a structured error-response object), or some other provider
error.
-/

/-- serde_json `Value`.  The numeric payload is modelled as `Int`; the
classification code only distinguishes the `String` variant from the rest,
so the payload types of the other variants are irrelevant to every
theorem. -/
inductive JsonValue where
  | null
  | bool (b : Bool)
  | num (n : Int)
  | str (s : String)
  | arr (elems : List JsonValue)
  | obj (fields : List (String × JsonValue))

/-- True exactly on the `String` variant of a JSON value. -/
def JsonValue.isString : JsonValue → Bool
  | .str _ => true
  | _ => false

/-- ethers `JsonRpcError`: an error response with a code, a message, and an
optional structured `data` payload. -/
structure JsonRpcError where
  code : Int
  message : String
  data : Option JsonValue

/-- The provider's response to the state-overridden `eth_call`, as matched
at src/src/main.rs:134-152: success bytes, a JSON-RPC client error (with
`as_error_response()` yielding `some` structured response or `none`), or any
other `ProviderError` variant. -/
inductive ProviderOutcome where
  | ok (bytes : List Byte)
  | jsonRpcClientError (resp : Option JsonRpcError)
  | otherError

/-- The hard-failure causes of `funded_eth_call` (the outer `eyre::Result`
layer): a JSON-RPC client error that is not a structured error response
(src/src/main.rs:139), a structured error whose `data` is present but not a
string (line 146), a string `data` that is not valid hex (the `?` on
`hex::decode`, line 144), or any other provider error (line 151). -/
inductive FundedCallFailure where
  | jsonRpcFailure
  | malformedRpc (v : JsonValue)
  | hexDecodeFailure
  | providerFailure

/-- `EthCallError` (src/src/main.rs:114-118): the classified revert payload
and the node-reported message. -/
structure EthCallError where
  data : List Byte
  msg : String

/-- One hex digit as accepted by the `hex` crate: 0-9, a-f and A-F map to
their value (48, 87 and 55 are the ASCII offsets of the three ranges),
anything else is rejected. -/
def hexDigitVal (c : Char) : Option Nat :=
  if '0' ≤ c ∧ c ≤ '9' then some (c.toNat - 48)
  else if 'a' ≤ c ∧ c ≤ 'f' then some (c.toNat - 87)
  else if 'A' ≤ c ∧ c ≤ 'F' then some (c.toNat - 55)
  else none

/-- `hex::decode` over the characters of the input: fails on odd length or
any non-hex character.  The `% 256` is a no-op since both digits are below
16. -/
def hexDecodeList : List Char → Option (List Byte)
  | [] => some []
  | [_] => none
  | c1 :: c2 :: rest => do
      let h ← hexDigitVal c1
      let l ← hexDigitVal c2
      let bs ← hexDecodeList rest
      pure (⟨(h * 16 + l) % 256, Nat.mod_lt _ (by norm_num)⟩ :: bs)

def hexDecode (s : String) : Option (List Byte) :=
  hexDecodeList s.data

/-- `data.strip_prefix("0x").unwrap_or(data)` (src/src/main.rs:144). -/
def strip0x (s : String) : String :=
  match s.data with
  | '0' :: 'x' :: rest => ⟨rest⟩
  | _ => s

/-- The response classification of `funded_eth_call`
(src/src/main.rs:134-152), with the same two-layer result shape as the Rust
`Result<Result<Vec<u8>, EthCallError>>`. -/
def funded_eth_call : ProviderOutcome → Except FundedCallFailure (Except EthCallError (List Byte))
  | .ok bytes => .ok (.ok bytes)
  | .jsonRpcClientError none => .error .jsonRpcFailure
  | .jsonRpcClientError (some err) =>
      match err.data with
      | some (.str s) =>
          match hexDecode (strip0x s) with
          | some bs => .ok (.error ⟨bs, err.message⟩)
          | none => .error .hexDecodeFailure
      | some v => .error (.malformedRpc v)
      | none => .ok (.error ⟨[], err.message⟩)
  | .otherError => .error .providerFailure

/-!
## Spoofed state (src/src/main.rs:103-104 and 132)

ethers `spoof::State` wraps a `BTreeMap<H160, spoof::Account>`; it is
modelled as an association list with distinct keys (the `BTreeMap`'s key
ordering plays no role in any claim, only key membership and the stored
accounts).  `spoof::code(address, code)` builds a state with the single
entry `address ↦ { code: Some(code) }`; `funded_eth_call` then executes
`state.account(Default::default()).balance = Some(U256::MAX)`, an
entry-or-default update of the zero address.
-/

structure SpoofAccount where
  nonce : Option Nat := none
  balance : Option Nat := none
  code : Option (List Byte) := none
  storage : Option (List (Nat × Nat)) := none
deriving DecidableEq

abbrev SpoofState := List (Nat × SpoofAccount)

/-- `spoof::code(address, code)`. -/
def spoof_code (addr : Nat) (code : List Byte) : SpoofState :=
  [(addr, { code := some code })]

/-- `state.account(Default::default()).balance = Some(U256::MAX)`
(src/src/main.rs:132): get-or-insert the zero-address entry, then set its
balance to `U256::MAX = 2 ^ 256 - 1`. -/
def fundDefaultAccount (s : SpoofState) : SpoofState :=
  if s.any (fun p => p.1 == 0) then
    s.map (fun p => if p.1 == 0 then (p.1, { p.2 with balance := some (2 ^ 256 - 1) }) else p)
  else
    s ++ [(0, { balance := some (2 ^ 256 - 1) })]

/-- The full override mapping in effect for the simulated call: the code
spoof built by `estimate_activation_data_fee` (line 104) after
`funded_eth_call`'s balance override of the default (zero) address. -/
def estimation_state (addr : Nat) (code : List Byte) : SpoofState :=
  fundDefaultAccount (spoof_code addr code)

/-!
## Estimation pipeline (`estimate_activation_data_fee`, src/src/main.rs:96-112)

The bytecode fetch and the call round trip are external; given the
provider's response to the spoofed call, the function classifies it with
`funded_eth_call` (both `?` layers), ABI-decodes the return bytes, and
converts the alloy `U256` `dataFee` to an ethers `U256` via
`U256::from_little_endian(dataFee.as_le_slice())`.
-/

inductive EstimateError where
  | rpc (f : FundedCallFailure)
  | reverted (msg : String)
  | decodeFailure

def estimate_activation_data_fee (outcome : ProviderOutcome) : Except EstimateError Nat :=
  match funded_eth_call outcome with
  | .error f => .error (.rpc f)
  | .ok (.error e) => .error (.reverted e.msg)
  | .ok (.ok outs) =>
      match abi_decode_returns outs with
      | none => .error .decodeFailure
      | some (_, dataFee) => .ok (fromLE (leBytes 32 dataFee))

/-!
## Transaction construction (`activate_stylus_program`, src/src/main.rs:56-79)

The submitted EIP-1559 request: `from` the signer's address, `to` the
ArbWasm precompile, `value` the (possibly bumped) estimated data fee, `data`
the encoded `activateProgram` call.  `ARB_WASM_H160` is the byte-for-byte
reinterpretation of `ARB_WASM_ADDRESS`
(`0x0000000000000000000000000000000000000071`, src/src/main.rs:15-19), so a
single numeric address models both.  If the bump multiplication panics no
transaction is built, hence the `Option`.
-/

def ARB_WASM_ADDRESS : Nat := 0x71

structure TxRequest where
  fromAddr : Nat
  toAddr : Nat
  value : Nat
  data : List Byte
deriving DecidableEq

def activate_tx (signerAddr program estimatedFee : Nat)
    (bumpPercent : Option Nat) : Option TxRequest :=
  match (match bumpPercent with
         | some pct => bump_data_fee estimatedFee pct
         | none => some estimatedFee) with
  | none => none
  | some dataFee =>
      some { fromAddr := signerAddr, toAddr := ARB_WASM_ADDRESS,
             value := dataFee, data := encodeActivateCall program }

/-!
## Helper lemmas on the byte-string codecs
-/

theorem fromBE_append_singleton (bs : List Byte) (b : Byte) :
    fromBE (bs ++ [b]) = fromBE bs * 256 + b.val := by
  induction bs with
  | nil => simp [fromBE]
  | cons hd tl ih =>
      simp only [List.cons_append, fromBE, List.append_eq, ih, List.length_append,
        List.length_cons, List.length_nil]
      ring

theorem fromBE_beBytes (n v : Nat) (h : v < 256 ^ n) :
    fromBE (beBytes n v) = v := by
  induction n generalizing v with
  | zero => interval_cases v; rfl
  | succ n ih =>
      have hdiv : v / 256 < 256 ^ n := by
        rw [Nat.div_lt_iff_lt_mul (by norm_num)]
        calc v < 256 ^ (n + 1) := h
        _ = 256 ^ n * 256 := by ring
      simp only [beBytes, fromBE_append_singleton, ih _ hdiv]
      omega

theorem length_beBytes (n v : Nat) : (beBytes n v).length = n := by
  induction n generalizing v with
  | zero => rfl
  | succ n ih => simp [beBytes, ih]

theorem fromBE_lt (bs : List Byte) : fromBE bs < 256 ^ bs.length := by
  induction bs with
  | nil => simp [fromBE]
  | cons b tl ih =>
      have hb : b.val ≤ 255 := Nat.lt_succ_iff.mp b.isLt
      calc b.val * 256 ^ tl.length + fromBE tl
          < b.val * 256 ^ tl.length + 256 ^ tl.length := by omega
        _ = (b.val + 1) * 256 ^ tl.length := by ring
        _ ≤ 256 * 256 ^ tl.length := by
            exact Nat.mul_le_mul_right _ (by omega)
        _ = 256 ^ (b :: tl).length := by
            simp [List.length_cons]; ring

theorem fromLE_leBytes (n v : Nat) (h : v < 256 ^ n) :
    fromLE (leBytes n v) = v := by
  induction n generalizing v with
  | zero => interval_cases v; rfl
  | succ n ih =>
      have hdiv : v / 256 < 256 ^ n := by
        rw [Nat.div_lt_iff_lt_mul (by norm_num)]
        calc v < 256 ^ (n + 1) := h
        _ = 256 ^ n * 256 := by ring
      simp only [leBytes, fromLE, ih _ hdiv]
      omega

theorem beBytes_zero (n : Nat) : beBytes n 0 = List.replicate n (0 : Byte) := by
  induction n with
  | zero => rfl
  | succ n ih =>
      have h0 : (⟨0 % 256, Nat.mod_lt _ (by norm_num)⟩ : Byte) = 0 := by
        apply Fin.ext; simp
      rw [beBytes, Nat.zero_div, ih, h0, ← List.replicate_succ']

theorem beBytes_split (m k v : Nat) :
    beBytes (m + k) v = beBytes m (v / 256 ^ k) ++ beBytes k v := by
  induction k generalizing v with
  | zero => simp [beBytes]
  | succ k ih =>
      show beBytes (m + k + 1) v = _
      rw [beBytes, ih (v / 256), Nat.div_div_eq_div_mul, beBytes,
        List.append_assoc]
      congr 2
      rw [pow_succ']

/-!
## Claims about the fee policy
-/

/-- C1, counterexample: the claim quantifies over every 256-bit fee and every
percentage, but at `fee = 2 ^ 255`, `pct = 100` the intermediate `U256`
product `2 ^ 255 * 200` exceeds `U256::MAX`, so the multiplication panics
(`none`) instead of returning `floor(base * (100 + percent) / 100)`. -/
theorem bump_data_fee_overflow_counterexample :
    bump_data_fee (2 ^ 255) 100 ≠ some (2 ^ 255 * (100 + 100) / 100) := by decide

/-- C1 (amended): whenever `100 + pct` fits in a `u64` and
`fee * (100 + pct)` fits in a `U256`, `bump_data_fee` returns exactly
`floor(fee * (100 + pct) / 100)` over the integers; in particular
`bump_data_fee 100 10 = 110` and `bump_data_fee 1 50 = 1`. -/
theorem bump_data_fee_exact (fee pct : Nat) (h64 : 100 + pct < 2 ^ 64)
    (hov : fee * (100 + pct) < 2 ^ 256) :
    bump_data_fee fee pct = some (fee * (100 + pct) / 100) ∧
    bump_data_fee 100 10 = some 110 ∧ bump_data_fee 1 50 = some 1 := by
  refine ⟨?_, by decide, by decide⟩
  simp only [bump_data_fee, Nat.mod_eq_of_lt h64]
  rw [if_pos hov]

/-- Witness for C1 at `fee = 100`, `pct = 10`. -/
theorem bump_data_fee_exact_witness :
    100 + 10 < 2 ^ 64 ∧ 100 * (100 + 10) < 2 ^ 256 ∧
    (bump_data_fee 100 10 = some (100 * (100 + 10) / 100) ∧
     bump_data_fee 100 10 = some 110 ∧ bump_data_fee 1 50 = some 1) :=
  ⟨by norm_num, by norm_num, bump_data_fee_exact 100 10 (by norm_num) (by norm_num)⟩

/-- C2, counterexample: the claim says the bump computation never wraps,
truncates, or panics on any input pair, but at `fee = U256::MAX`, `pct = 1`
the `U256` multiplication `fee * 101` overflows and panics (`none`). -/
theorem bump_data_fee_panic_counterexample :
    bump_data_fee (2 ^ 256 - 1) 1 = none := by decide

/-- C2 (amended): the intermediate product is computed in `U256`, not a
wider type.  When `100 + pct` fits in a `u64`: if the product fits in a
`U256` the result is exact (no wrap, no truncation), and if it does not the
multiplication panics — overflow is detected, never silent.  (For
`100 + pct ≥ 2 ^ 64` the `u64` addition itself wraps in release builds,
outside this theorem's hypotheses.) -/
theorem bump_data_fee_overflow_detected (fee pct : Nat) (h64 : 100 + pct < 2 ^ 64) :
    (fee * (100 + pct) < 2 ^ 256 →
      bump_data_fee fee pct = some (fee * (100 + pct) / 100)) ∧
    (2 ^ 256 ≤ fee * (100 + pct) → bump_data_fee fee pct = none) := by
  constructor
  · intro h
    simp only [bump_data_fee, Nat.mod_eq_of_lt h64]
    rw [if_pos h]
  · intro h
    simp only [bump_data_fee, Nat.mod_eq_of_lt h64]
    rw [if_neg (by omega)]

/-- Witness for C2 at `fee = 7`, `pct = 3`. -/
theorem bump_data_fee_overflow_detected_witness :
    100 + 3 < 2 ^ 64 ∧
    (7 * (100 + 3) < 2 ^ 256 → bump_data_fee 7 3 = some (7 * (100 + 3) / 100)) ∧
    (2 ^ 256 ≤ 7 * (100 + 3) → bump_data_fee 7 3 = none) :=
  ⟨by norm_num, (bump_data_fee_overflow_detected 7 3 (by norm_num)).1,
   (bump_data_fee_overflow_detected 7 3 (by norm_num)).2⟩

/-- C3, counterexample: the claim quantifies over every 256-bit fee, but at
`fee = U256::MAX` the product `fee * 100` overflows `U256` even with
`percent = 0`, so the function panics (`none`) instead of returning the fee
unchanged. -/
theorem bump_data_fee_zero_pct_counterexample :
    bump_data_fee (2 ^ 256 - 1) 0 ≠ some (2 ^ 256 - 1) := by decide

/-- C3 (amended): `percent = 0` is an identity transform for every fee with
`fee * 100 < 2 ^ 256` (all fees up to `U256::MAX / 100`). -/
theorem bump_data_fee_zero_pct_identity (fee : Nat) (h : fee * 100 < 2 ^ 256) :
    bump_data_fee fee 0 = some fee := by
  have h100 : (100 + 0) % 2 ^ 64 = 100 := by norm_num
  simp only [bump_data_fee, h100]
  rw [if_pos h]
  congr 1
  omega

/-- Witness for C3 at `fee = 12345`. -/
theorem bump_data_fee_zero_pct_identity_witness :
    12345 * 100 < 2 ^ 256 ∧ bump_data_fee 12345 0 = some 12345 :=
  ⟨by norm_num, bump_data_fee_zero_pct_identity 12345 (by norm_num)⟩

/-- C9, counterexample: monotonicity in the percentage fails over the full
quantified domain: at `fee = 2 ^ 248` the function returns a value for
`pct = 0` but panics (`none`) for the larger `pct = 1024` because the `U256`
product overflows, so the bumped fee is not defined, let alone
non-decreasing, there. -/
theorem bump_data_fee_monotone_counterexample :
    bump_data_fee (2 ^ 248) 0 = some (2 ^ 248) ∧
    bump_data_fee (2 ^ 248) 1024 = none := by
  constructor <;> decide

/-- C9 (amended): on the overflow-free region — `100 + pct` within `u64` and
the `U256` product within range — `bump_data_fee` is monotonically
non-decreasing in the percentage for a fixed fee, and in the fee for a fixed
percentage. -/
theorem bump_data_fee_monotone :
    (∀ fee p1 p2 : Nat, 100 + p2 < 2 ^ 64 → p1 ≤ p2 → fee * (100 + p2) < 2 ^ 256 →
      ∃ v1 v2, bump_data_fee fee p1 = some v1 ∧ bump_data_fee fee p2 = some v2 ∧
        v1 ≤ v2) ∧
    (∀ fee1 fee2 p : Nat, 100 + p < 2 ^ 64 → fee1 ≤ fee2 → fee2 * (100 + p) < 2 ^ 256 →
      ∃ v1 v2, bump_data_fee fee1 p = some v1 ∧ bump_data_fee fee2 p = some v2 ∧
        v1 ≤ v2) := by
  constructor
  · intro fee p1 p2 h64 hle hov
    have hm : fee * (100 + p1) ≤ fee * (100 + p2) :=
      Nat.mul_le_mul (le_refl fee) (by omega)
    refine ⟨fee * (100 + p1) / 100, fee * (100 + p2) / 100, ?_, ?_,
      Nat.div_le_div_right hm⟩
    · simp only [bump_data_fee, Nat.mod_eq_of_lt (show 100 + p1 < 2 ^ 64 by omega)]
      rw [if_pos (by omega)]
    · simp only [bump_data_fee, Nat.mod_eq_of_lt h64]
      rw [if_pos hov]
  · intro fee1 fee2 p h64 hle hov
    have hm : fee1 * (100 + p) ≤ fee2 * (100 + p) :=
      Nat.mul_le_mul hle (le_refl (100 + p))
    refine ⟨fee1 * (100 + p) / 100, fee2 * (100 + p) / 100, ?_, ?_,
      Nat.div_le_div_right hm⟩
    · simp only [bump_data_fee, Nat.mod_eq_of_lt h64]
      rw [if_pos (by omega)]
    · simp only [bump_data_fee, Nat.mod_eq_of_lt h64]
      rw [if_pos hov]

/-- Witness for C9: percentages 10 ≤ 20 at fee 100, and fees 50 ≤ 100 at
percentage 10. -/
theorem bump_data_fee_monotone_witness :
    (∃ v1 v2, bump_data_fee 100 10 = some v1 ∧ bump_data_fee 100 20 = some v2 ∧
      v1 ≤ v2) ∧
    (∃ v1 v2, bump_data_fee 50 10 = some v1 ∧ bump_data_fee 100 10 = some v2 ∧
      v1 ≤ v2) :=
  ⟨bump_data_fee_monotone.1 100 10 20 (by norm_num) (by norm_num) (by norm_num),
   bump_data_fee_monotone.2 50 100 10 (by norm_num) (by norm_num) (by norm_num)⟩

/-!
## Claims about the state override, RPC classification and pipeline
-/

/-- C4, counterexample: when the target program address is the zero address
— the same address the caller balance override lands on — the override
mapping contains exactly one affected account (carrying both the code and
the balance override), not two. -/
theorem estimation_state_zero_target_counterexample :
    (estimation_state 0 [(96 : Byte)]).length = 1 ∧
    estimation_state 0 [(96 : Byte)] =
      [(0, { balance := some (2 ^ 256 - 1), code := some [(96 : Byte)] })] := by
  constructor <;> decide

/-- C4 (amended): for every nonzero target address, the override state
passed to the simulated call holds exactly two accounts and nothing else:
the target with its code overridden to the fetched bytecode, and the
default (zero) caller address with its balance overridden to
`U256::MAX = 2 ^ 256 - 1`. -/
theorem estimation_state_two_accounts (addr : Nat) (code : List Byte)
    (h : addr ≠ 0) :
    estimation_state addr code =
      [(addr, { code := some code }), (0, { balance := some (2 ^ 256 - 1) })] := by
  simp [estimation_state, fundDefaultAccount, spoof_code, h]

/-- Witness for C4 at target address 5 with one-byte code. -/
theorem estimation_state_two_accounts_witness :
    (5 : Nat) ≠ 0 ∧
    estimation_state 5 [(1 : Byte)] =
      [(5, { code := some [(1 : Byte)] }), (0, { balance := some (2 ^ 256 - 1) })] :=
  ⟨by norm_num, estimation_state_two_accounts 5 [(1 : Byte)] (by norm_num)⟩

/-- C5: classification of a structured JSON-RPC error response by
`funded_eth_call`: a string `data` field is hex-decoded (with or without the
0x marker, which `strip0x` removes) into the revert payload; a present but
non-string `data` field is a hard `malformedRpc` failure, neither success
nor revert; an absent `data` field is a revert with an empty payload and the
node's message, not an error. -/
theorem funded_eth_call_error_data_classification
    (c : Int) (msg s : String) (bs : List Byte) (v : JsonValue)
    (hhex : hexDecode (strip0x s) = some bs) (hv : v.isString = false) :
    funded_eth_call (.jsonRpcClientError (some ⟨c, msg, some (.str s)⟩)) =
      .ok (.error ⟨bs, msg⟩) ∧
    funded_eth_call (.jsonRpcClientError (some ⟨c, msg, some v⟩)) =
      .error (.malformedRpc v) ∧
    funded_eth_call (.jsonRpcClientError (some ⟨c, msg, none⟩)) =
      .ok (.error ⟨[], msg⟩) := by
  refine ⟨?_, ?_, rfl⟩
  · simp only [funded_eth_call, hhex]
  · cases v with
    | str s2 => simp [JsonValue.isString] at hv
    | null => rfl
    | bool b => rfl
    | num n => rfl
    | arr l => rfl
    | obj l => rfl

/-- Witness for C5: hex payload 0x6f77, non-string data `null`, absent
data. -/
theorem funded_eth_call_error_data_classification_witness :
    hexDecode (strip0x (r"0x6f77")) = some [(111 : Byte), 119] ∧
    JsonValue.isString .null = false ∧
    (funded_eth_call (.jsonRpcClientError
        (some ⟨3, (r"execution reverted"), some (.str (r"0x6f77"))⟩)) =
      .ok (.error ⟨[(111 : Byte), 119], (r"execution reverted")⟩) ∧
     funded_eth_call (.jsonRpcClientError
        (some ⟨3, (r"execution reverted"), some .null⟩)) =
      .error (.malformedRpc .null) ∧
     funded_eth_call (.jsonRpcClientError
        (some ⟨3, (r"execution reverted"), none⟩)) =
      .ok (.error ⟨[], (r"execution reverted")⟩)) :=
  ⟨by decide, rfl,
   funded_eth_call_error_data_classification 3 (r"execution reverted") (r"0x6f77")
     [(111 : Byte), 119] .null (by decide) rfl⟩

/-- C6: whenever the simulated call is classified as a revert,
`estimate_activation_data_fee` fails with `reverted` carrying the
node-reported message verbatim (the `From<EthCallError>` conversion builds
the error from `value.msg`), and that failure is a different error
constructor from every transport-layer failure. -/
theorem estimate_reverted_message_verbatim (outcome : ProviderOutcome)
    (e : EthCallError) (h : funded_eth_call outcome = .ok (.error e)) :
    estimate_activation_data_fee outcome = .error (.reverted e.msg) ∧
    ∀ f, EstimateError.reverted e.msg ≠ EstimateError.rpc f := by
  refine ⟨?_, fun f hc => by cases hc⟩
  unfold estimate_activation_data_fee
  rw [h]

/-- Witness for C6 on a revert response with no data field and the message
reported by an already-activated program. -/
theorem estimate_reverted_message_verbatim_witness :
    funded_eth_call (.jsonRpcClientError
        (some ⟨3, (r"execution reverted: already activated"), none⟩)) =
      .ok (.error ⟨[], (r"execution reverted: already activated")⟩) ∧
    (estimate_activation_data_fee (.jsonRpcClientError
        (some ⟨3, (r"execution reverted: already activated"), none⟩)) =
      .error (.reverted (r"execution reverted: already activated")) ∧
     ∀ f, EstimateError.reverted (r"execution reverted: already activated") ≠
        EstimateError.rpc f) :=
  ⟨rfl, estimate_reverted_message_verbatim _
    ⟨[], (r"execution reverted: already activated")⟩ rfl⟩

/-- C7, counterexample: a valid 64-byte encoding of `(1, 2)` decodes, but
the same encoding followed by a single trailing zero byte fails to decode —
the `validate = true` re-serialization check rejects trailing padding,
contrary to the claim that trailing padding bytes are tolerated. -/
theorem abi_decode_trailing_counterexample :
    abi_decode_returns (encode_activate_return 1 2) = some (1, 2) ∧
    abi_decode_returns (encode_activate_return 1 2 ++ [(0 : Byte)]) = none := by
  constructor <;> decide

/-- C7 (amended): with `validate = true` the decoder accepts exactly the
canonical 64-byte tuple encodings: decoding succeeds iff the payload is
exactly 64 bytes whose `uint16` padding is all zero (so it fails precisely
when the length or padding is inconsistent, including any trailing bytes),
and every canonical encoding of an in-range `(version, dataFee)` pair
round-trips. -/
theorem abi_decode_exact_shape (data : List Byte) (v fee : Nat)
    (hv : v < 2 ^ 16) (hf : fee < 2 ^ 256) :
    ((abi_decode_returns data).isSome ↔
      data.length = 64 ∧ data.take 30 = List.replicate 30 (0 : Byte)) ∧
    abi_decode_returns (encode_activate_return v fee) = some (v, fee) := by
  have hv2 : v < 256 ^ 2 := by norm_num at hv ⊢; omega
  have hf32 : fee < 256 ^ 32 := by norm_num at hf ⊢; omega
  constructor
  · unfold abi_decode_returns
    split
    · simp_all
    · simp_all
  · have hdiv : v / 256 ^ 2 = 0 := Nat.div_eq_of_lt hv2
    have hsplit : beBytes 32 v = List.replicate 30 (0 : Byte) ++ beBytes 2 v := by
      have h := beBytes_split 30 2 v
      rw [hdiv, beBytes_zero] at h
      norm_num at h
      exact h
    have henc : encode_activate_return v fee =
        (List.replicate 30 (0 : Byte) ++ beBytes 2 v) ++ beBytes 32 fee := by
      rw [encode_activate_return, hsplit]
    have hlen30 : (List.replicate 30 (0 : Byte)).length = 30 := by simp
    have hlen32 : ((List.replicate 30 (0 : Byte)) ++ beBytes 2 v).length = 32 := by
      simp [length_beBytes]
    have hlen : (encode_activate_return v fee).length = 64 := by
      rw [henc]
      simp [length_beBytes]
    have htake : (encode_activate_return v fee).take 30 =
        List.replicate 30 (0 : Byte) := by
      rw [henc, List.append_assoc, List.take_left' hlen30]
    have hdrop30 : (encode_activate_return v fee).drop 30 =
        beBytes 2 v ++ beBytes 32 fee := by
      rw [henc, List.append_assoc, List.drop_left' hlen30]
    have hdrop32 : (encode_activate_return v fee).drop 32 = beBytes 32 fee := by
      rw [henc, List.drop_left' hlen32]
    unfold abi_decode_returns
    rw [if_pos ⟨hlen, htake⟩, hdrop30, hdrop32,
      List.take_left' (length_beBytes 2 v), fromBE_beBytes 2 v hv2,
      fromBE_beBytes 32 fee hf32]

/-- Witness for C7 at the encoding of `(1, 12345)`. -/
theorem abi_decode_exact_shape_witness :
    (1 : Nat) < 2 ^ 16 ∧ (12345 : Nat) < 2 ^ 256 ∧
    (((abi_decode_returns (encode_activate_return 1 12345)).isSome ↔
       (encode_activate_return 1 12345).length = 64 ∧
       (encode_activate_return 1 12345).take 30 = List.replicate 30 (0 : Byte)) ∧
     abi_decode_returns (encode_activate_return 1 12345) = some (1, 12345)) :=
  ⟨by norm_num, by norm_num,
   abi_decode_exact_shape (encode_activate_return 1 12345) 1 12345
     (by norm_num) (by norm_num)⟩

/-- C8: the submitted activation transaction always has destination
`ARB_WASM_ADDRESS` (0x71), sender the signer's address, data the ABI
encoding of `activateProgram(programAddress)`, and value the estimated fee
— unchanged when no bump is requested, the bumped fee when one is; in
particular estimated fee 1000 with bump percent 20 submits value exactly
1200. -/
theorem activate_tx_fields (s prog fee pct : Nat) :
    activate_tx s prog fee none =
      some ⟨s, ARB_WASM_ADDRESS, fee, encodeActivateCall prog⟩ ∧
    (∀ tx, activate_tx s prog fee (some pct) = some tx →
      tx.fromAddr = s ∧ tx.toAddr = ARB_WASM_ADDRESS ∧
      tx.data = encodeActivateCall prog ∧ some tx.value = bump_data_fee fee pct) ∧
    activate_tx s prog 1000 (some 20) =
      some ⟨s, ARB_WASM_ADDRESS, 1200, encodeActivateCall prog⟩ := by
  refine ⟨rfl, ?_, ?_⟩
  · intro tx htx
    unfold activate_tx at htx
    have htx' : (match bump_data_fee fee pct with
        | none => none
        | some dataFee =>
          some (TxRequest.mk s ARB_WASM_ADDRESS dataFee
            (encodeActivateCall prog))) = some tx := htx
    clear htx
    cases hb : bump_data_fee fee pct with
    | none => rw [hb] at htx'; cases htx'
    | some w =>
        rw [hb] at htx'
        obtain rfl := Option.some.inj htx'
        exact ⟨rfl, rfl, rfl, rfl⟩
  · have hb : bump_data_fee 1000 20 = some 1200 := by decide
    simp only [activate_tx, hb]

/-- Witness for C8: signer 1, program 2, estimated fee 5, bump percent 7
(bumped value `5 * 107 / 100 = 5`). -/
theorem activate_tx_fields_witness :
    activate_tx 1 2 5 (some 7) =
      some ⟨1, ARB_WASM_ADDRESS, 5, encodeActivateCall 2⟩ ∧
    ((TxRequest.mk 1 ARB_WASM_ADDRESS 5 (encodeActivateCall 2)).fromAddr = 1 ∧
     (TxRequest.mk 1 ARB_WASM_ADDRESS 5 (encodeActivateCall 2)).toAddr =
       ARB_WASM_ADDRESS ∧
     (TxRequest.mk 1 ARB_WASM_ADDRESS 5 (encodeActivateCall 2)).data =
       encodeActivateCall 2 ∧
     some (TxRequest.mk 1 ARB_WASM_ADDRESS 5 (encodeActivateCall 2)).value =
       bump_data_fee 5 7) :=
  ⟨by decide, (activate_tx_fields 1 2 5 7).2.1
    ⟨1, ARB_WASM_ADDRESS, 5, encodeActivateCall 2⟩ (by decide)⟩

/-- C10: on a successful simulated call whose return bytes decode to
`(ver, fee)`, `estimate_activation_data_fee` returns exactly `fee`: the
cross-library conversion — ethers `U256::from_little_endian` applied to
alloy's `as_le_slice` of the decoded 256-bit value — is the identity. -/
theorem estimate_returns_decoded_fee (outcome : ProviderOutcome) (bs : List Byte)
    (ver fee : Nat) (h1 : funded_eth_call outcome = .ok (.ok bs))
    (h2 : abi_decode_returns bs = some (ver, fee)) :
    estimate_activation_data_fee outcome = .ok fee ∧
    fromLE (leBytes 32 fee) = fee := by
  have hfee : fee < 256 ^ 32 := by
    by_cases hcond : bs.length = 64 ∧ bs.take 30 = List.replicate 30 (0 : Byte)
    · unfold abi_decode_returns at h2
      rw [if_pos hcond] at h2
      have h2b : fromBE (bs.drop 32) = fee :=
        congrArg Prod.snd (Option.some.inj h2)
      rw [← h2b]
      have hlt := fromBE_lt (bs.drop 32)
      rw [List.length_drop, hcond.1] at hlt
      norm_num at hlt
      exact hlt
    · unfold abi_decode_returns at h2
      rw [if_neg hcond] at h2
      cases h2
  have hrt : fromLE (leBytes 32 fee) = fee := fromLE_leBytes 32 fee hfee
  refine ⟨?_, hrt⟩
  unfold estimate_activation_data_fee
  rw [h1]
  simp only [h2, hrt]

/-- Witness for C10 on the successful return of `(1, 12345)`. -/
theorem estimate_returns_decoded_fee_witness :
    funded_eth_call (.ok (encode_activate_return 1 12345)) =
      .ok (.ok (encode_activate_return 1 12345)) ∧
    abi_decode_returns (encode_activate_return 1 12345) = some (1, 12345) ∧
    (estimate_activation_data_fee (.ok (encode_activate_return 1 12345)) =
      .ok 12345 ∧ fromLE (leBytes 32 12345) = 12345) :=
  ⟨rfl, by decide,
   estimate_returns_decoded_fee (.ok (encode_activate_return 1 12345))
     (encode_activate_return 1 12345) 1 12345 rfl (by decide)⟩
